import Mathlib

/-!
# Verification of the popup front-end of the Click-to-Copy-Cookie extension

Shallow embedding of `src/interface/popup/cookie-list.js`.

The module is single-threaded, event-driven DOM plumbing.  We model the
mutable module state (`loadedCookies`, `disableButtons`, the cookie
container's first child, the page title, the clipboard) as an explicit
state record `St`, and the host-provided capabilities (permission checks,
permission prompts, the cookie fetch) as an environment `Env` of oracles.
Each event handler of the source becomes a function of type
`Env → St → St × List Action`, where the `Action` trace records the
observable host calls the handler makes, in program order (permission
check/request, cookie fetch, page transition, clipboard write, per-cookie
HTML removal/update).  `console.log` calls are not modelled: they have no
effect on any state we track.  Three lines of the source are load-bearing
for this development and are flagged where they are embedded:
`console.log(showNoCookies)` (line 66) and `console.log(showNoPermission)`
(line 75) pass the view functions to the logger without calling them, and
the call `showNoCookies()` in the empty-cookie-fetch path (line 86) is
commented out.
-/

namespace CookieList

/-- A cookie record as delivered by the host cookie API
(`browser.cookies`-style object: name, value, domain, path).  Flags and
expiration are irrelevant to every property proved here and are omitted. -/
structure CookieRec where
  name : String
  value : String
  domain : String
  path : String
  deriving DecidableEq, Repr

/-- Modelled from the spec: `Cookie.hashCode` lives in
`src/interface/lib/cookie.js`, which is not among the sources provided.
The spec requires the fingerprint to be a deterministic, collision-free
function of the identity fields (name, domain, path); we realise it as an
explicit pairing of those three fields. -/
def Cookie.hashCode (c : CookieRec) : String :=
  c.name ++ "|" ++ c.domain ++ "|" ++ c.path

/-- A registry entry: the display-model object built by
`new Cookie(id, cookie, optionHandler)`.  The rendered-HTML-node ownership
has no observable state beyond the `removeHtml`/`updateHtml` actions
recorded in traces. -/
structure CookieEntry where
  id : String
  cookie : CookieRec
  deriving DecidableEq, Repr

/-- The `loadedCookies` JS object: string keys mapped to entries, preserving
insertion order (JS objects enumerate string keys in insertion order;
assignment to an existing key keeps its position, assignment to a fresh key
appends, `delete` removes the key). -/
abbrev Registry := List (String × CookieEntry)

/-- Key lookup in a registry (`loadedCookies[id]`). -/
def regFind (m : Registry) (k : String) : Option CookieEntry :=
  match m with
  | [] => none
  | (k2, v) :: rest => if k2 = k then some v else regFind rest k

/-- Key removal (`delete loadedCookies[id]`). -/
def regErase : Registry → String → Registry
  | [], _ => []
  | (k2, v) :: rest, k =>
    if k2 = k then regErase rest k else (k2, v) :: regErase rest k

/-- Key assignment (`loadedCookies[id] = v`): update in place when the key
is present, append otherwise. -/
def regSet (m : Registry) (k : String) (v : CookieEntry) : Registry :=
  if (regFind m k).isSome then
    m.map (fun p => if p.1 = k then (k, v) else p)
  else
    m ++ [(k, v)]

/-- The identifier of the single child node currently attached to
`containerCookie`: `no-cookie` for the empty placeholder, `no-permission`
for the permission-request placeholder, `other` for anything else. -/
inductive ChildId where
  | noCookie
  | noPermission
  | other (tag : String)
  deriving DecidableEq, Repr

/-- Observable host calls made by a handler, in program order. -/
inductive Action where
  | checkPermissions (url : String)
  | requestPermission (pattern : String)
  | getAllCookies
  | transitionPage
  | copyCommand (text : String)
  | removeHtml (id : String)
  | updateHtml (id : String)
  deriving DecidableEq, Repr

/-- The mutable module state of `cookie-list.js`:
`currentTab` is `cookieHandler.currentTab` (its `url`), `none` before the
host announces the inspected tab; `disableButtons` is the reentrancy flag;
`loadedCookies` is the registry object; `containerChild` is the first child
of `containerCookie` (`none` when the container is empty); `pageTitle` is
the text of the `h1` inside `pageTitleContainer`; `titleElem` records
whether `pageTitleContainer` is non-null (assigned during
`DOMContentLoaded`); `clipboard` is the system clipboard content;
`buttonBarsActive` records the `active` class of the three button bars. -/
structure St where
  currentTab : Option String
  disableButtons : Bool
  loadedCookies : Registry
  containerChild : Option ChildId
  pageTitle : String
  titleElem : Bool
  clipboard : String
  buttonBarsActive : Bool
  deriving DecidableEq, Repr

/-- Host oracles: the outcome of `permissionHandler.checkPermissions` per
url, the outcome of `permissionHandler.requestPermission` per pattern, and
the cookie list that `cookieHandler.getAllCookies` delivers to its
callback. -/
structure Env where
  permission : String → Bool
  permissionGrant : String → Bool
  cookies : List CookieRec

/-- The function `setPageTitle(title)` (lines 306–312): a no-op when
`pageTitleContainer` is null, otherwise replaces the `h1` text. -/
def setPageTitle (s : St) (title : String) : St :=
  if s.titleElem then { s with pageTitle := title } else s

/-- The function `copyText(text)` (lines 318–327): appends a hidden
textarea holding `text`, selects it, issues `document.execCommand('Copy')`,
and removes the textarea.  The observable outcome is the clipboard content
and the copy command. -/
def copyText (s : St) (text : String) : St × List Action :=
  ({ s with clipboard := text }, [Action.copyCommand text])

/-- Modelled from the spec: `HeaderstringFormat.format` lives in
`src/interface/lib/headerstringFormat.js`, which is not among the sources
provided; the spec treats the header-string serialization as an opaque
service.  We realise it as the usual Cookie request-header rendering of the
registry; every theorem below uses it as an opaque function of the
registry. -/
def HeaderstringFormat.format (m : Registry) : String :=
  String.intercalate "; " (m.map (fun p => p.2.cookie.name ++ "=" ++ p.2.cookie.value))

/-- The lowercased name used by the comparator (`a.name.toLowerCase()`).
JS strings compare lexicographically by code unit; we embed a name as its
list of code points (identical to code units below `0x10000`), lowercased
character-wise exactly as ECMAScript does for ASCII. -/
def jsToLower (s : String) : List Nat :=
  s.data.map (fun c => c.toLower.toNat)

/-- Lexicographic order on code-point lists: the order `<` of ECMAScript
string comparison (a strict prefix is smaller; otherwise the first
differing position decides). -/
def lexLt : List Nat → List Nat → Bool
  | [], [] => false
  | [], _ :: _ => true
  | _ :: _, [] => false
  | a :: as, b :: bs =>
    if a < b then true else if b < a then false else lexLt as bs

/-- The comparator `sortCookiesByName(a, b)` (lines 281–285): compares the
lowercased names, returning `-1`, `1` or `0`. -/
def sortCookiesByName (a b : CookieRec) : Int :=
  let aName := jsToLower a.name
  let bName := jsToLower b.name
  if lexLt aName bName then -1 else if lexLt bName aName then 1 else 0

/-- The non-strict relation induced by the comparator: `a` may be placed
before `b` exactly when the comparator does not demand the opposite
order. -/
def jsSortRel (a b : CookieRec) : Prop :=
  sortCookiesByName a b ≤ 0

instance : DecidableRel jsSortRel :=
  fun a b => Int.decLe (sortCookiesByName a b) 0

/-- The call `cookies.sort(sortCookiesByName)` (line 80).  ECMAScript 2019
requires `Array.prototype.sort` to be stable and to produce an order
consistent with the comparator; the canonical such function is stable
insertion sort on the comparator's non-strict relation. -/
def sortCookies (l : List CookieRec) : List CookieRec :=
  l.insertionSort jsSortRel

/-- The `cookies.forEach` loop of the `getAllCookies` callback
(lines 90–93): `loadedCookies[id] = new Cookie(id, cookie, optionHandler)`
for each record, in order. -/
def buildRegistry (cookies : List CookieRec) : Registry :=
  cookies.foldl (fun m c => regSet m (Cookie.hashCode c) ⟨Cookie.hashCode c, c⟩) []

/-- The function `showNoCookies()` (lines 101–126): guarded by
`disableButtons`; when the container already shows the `no-cookie`
placeholder it returns; when it shows something else it sets
`disableButtons` and starts `Animate.transitionPage` towards the
placeholder (the completion callback is `transitionComplete` below); when
the container is empty it appends the placeholder directly. -/
def showNoCookies (s : St) : St × List Action :=
  if s.disableButtons then (s, [])
  else
    match s.containerChild with
    | some child =>
      if child = ChildId.noCookie then (s, [])
      else
        ({ s with containerChild := some ChildId.noCookie, disableButtons := true },
         [Action.transitionPage])
    | none => ({ s with containerChild := some ChildId.noCookie }, [])

/-- The function `showNoPermission()` (lines 132–197): guarded by
`disableButtons`; deactivates the three button bars, then swaps the
container child to the `no-permission` placeholder exactly as
`showNoCookies` does (early return when it is already shown, transition
when another child is attached, plain append when the container is empty),
and finally focuses and wires the two permission-request buttons (their
click handlers are `requestPermissionClick` and `requestPermissionAllClick`
below).  The Firefox-devtools branch only rewrites the placeholder's
instruction text. -/
def showNoPermission (s : St) : St × List Action :=
  if s.disableButtons then (s, [])
  else
    let s1 := { s with buttonBarsActive := false }
    match s1.containerChild with
    | some child =>
      if child = ChildId.noPermission then (s1, [])
      else
        ({ s1 with containerChild := some ChildId.noPermission, disableButtons := true },
         [Action.transitionPage])
    | none => ({ s1 with containerChild := some ChildId.noPermission }, [])

/-- The completion callback handed to `Animate.transitionPage`:
`() => { disableButtons = false; }`. -/
def transitionComplete (s : St) : St :=
  { s with disableButtons := false }

/-- The function `showCookiesForTab()` (lines 47–95).  It returns when
`currentTab` is unset or when `disableButtons` holds.  The second
`!cookieHandler.currentTab` check of the source (line 65) is embedded as
written; note that line 66 is `console.log(showNoCookies)` — the view
function is logged, not called.  When the permission check fails, line 74
sets the title and line 75 is `console.log(showNoPermission)` — again
logged, not called — and the function returns.  Otherwise `getAllCookies`
delivers the cookie list to the callback, which sorts it, resets
`loadedCookies` to `{}`, returns if the list is empty (the `showNoCookies()`
call of line 86 is commented out in the source), and otherwise fills the
registry. -/
def showCookiesForTab (env : Env) (s : St) : St × List Action :=
  match s.currentTab with
  | none => (s, [])
  | some url =>
    if s.disableButtons then (s, [])
    else if s.currentTab = none then
      (setPageTitle s "No cookies found!", [])
    else if env.permission url = false then
      (setPageTitle s "No permissions to read cookies!", [Action.checkPermissions url])
    else
      let cookies := sortCookies env.cookies
      let s1 := { s with loadedCookies := [] }
      if cookies.length = 0 then
        (s1, [Action.checkPermissions url, Action.getAllCookies])
      else
        ({ s1 with loadedCookies := buildRegistry cookies },
         [Action.checkPermissions url, Action.getAllCookies])

/-- The `cookiesChanged` payload `{cookie, removed, cause}`. -/
structure ChangeInfo where
  cookie : CookieRec
  removed : Bool
  cause : String
  deriving DecidableEq, Repr

/-- The handler `onCookiesChanged(changeInfo)` (lines 241–273).  A falsy
`changeInfo` triggers a full `showCookiesForTab` refresh.  Otherwise the
fingerprint is computed, `overwrite` events return with nothing touched,
removals delete the entry when one is present (the `removeHtml` completion
callback shows the empty placeholder if the registry became empty;
`Cookie.removeHtml` is not among the sources provided, so, modelled from
the spec, its callback runs after the synchronous `delete` that follows
the call), and non-removals update the entry in place when the fingerprint
is present (`updateHtml`, modelled from the spec as replacing the stored
record) or append a fresh entry otherwise. -/
def onCookiesChanged (env : Env) (s : St) (changeInfo : Option ChangeInfo) :
    St × List Action :=
  match changeInfo with
  | none => showCookiesForTab env s
  | some ci =>
    let id := Cookie.hashCode ci.cookie
    if ci.cause = "overwrite" then (s, [])
    else if ci.removed then
      if (regFind s.loadedCookies id).isSome then
        let s1 := { s with loadedCookies := regErase s.loadedCookies id }
        if s1.loadedCookies.isEmpty then
          let r := showNoCookies s1
          (r.1, Action.removeHtml id :: r.2)
        else (s1, [Action.removeHtml id])
      else (s, [])
    else if (regFind s.loadedCookies id).isSome then
      ({ s with loadedCookies := regSet s.loadedCookies id ⟨id, ci.cookie⟩ },
       [Action.updateHtml id])
    else
      ({ s with loadedCookies := s.loadedCookies ++ [(id, ⟨id, ci.cookie⟩)] }, [])

/-- The click handler attached to `pageTitleContainer` (lines 33–36):
`copyText(HeaderstringFormat.format(loadedCookies))` followed by
`setPageTitle('Copied to clipboard!')`. -/
def pageTitleClick (s : St) : St × List Action :=
  let r := copyText s (HeaderstringFormat.format s.loadedCookies)
  (setPageTitle r.1 "Copied to clipboard!", r.2)

/-- The click handler attached to `#request-permission` (lines 174–185):
requests permission for `cookieHandler.currentTab.url` and refreshes the
view only if the request was granted.  Dereferencing `.url` of a null tab
throws, embedded as `none`. -/
def requestPermissionClick (env : Env) (s : St) : Option (St × List Action) :=
  match s.currentTab with
  | none => none
  | some url =>
    if env.permissionGrant url then
      let r := showCookiesForTab env s
      some (r.1, Action.requestPermission url :: r.2)
    else some (s, [Action.requestPermission url])

/-- The click handler attached to `#request-permission-all` (lines
186–196): requests blanket `<all_urls>` permission and refreshes the view
only if the request was granted. -/
def requestPermissionAllClick (env : Env) (s : St) : St × List Action :=
  if env.permissionGrant "<all_urls>" then
    let r := showCookiesForTab env s
    (r.1, Action.requestPermission "<all_urls>" :: r.2)
  else (s, [Action.requestPermission "<all_urls>"])

/-- A host environment that denies every permission check and every
permission request, delivering no cookies. -/
def envDenyAll : Env := ⟨fun _ => false, fun _ => false, []⟩

/-- A host environment that grants every permission check (requests still
denied), delivering no cookies. -/
def envAllowEmpty : Env := ⟨fun _ => true, fun _ => false, []⟩

/-- A concrete popup state right after `DOMContentLoaded` on a known tab. -/
def stBase : St :=
  ⟨some "https://example.com", false, [], none, "Cookie Editor", true, "", true⟩

/-- A concrete cookie record. -/
def recA : CookieRec := ⟨"sid", "1", "example.com", "/"⟩

/-- A concrete popup state before the `ready` signal: the tab is unknown. -/
def stPreReady : St := ⟨none, false, [], none, "Cookie Editor", true, "", true⟩

/-- Cookies with equal lowercased names, used by the stability witness. -/
def recUp : CookieRec := ⟨"SID", "a", "d", "/"⟩

/-- Lower-case twin of `recUp` with a different value. -/
def recLo : CookieRec := ⟨"sid", "b", "d", "/"⟩


end CookieList

namespace CookieList

theorem lexLt_irrefl : ∀ x : List Nat, lexLt x x = false
  | [] => rfl
  | _ :: as => by simp [lexLt, lexLt_irrefl as]

theorem lexLt_asymm : ∀ x y : List Nat, lexLt x y = true → lexLt y x = false
  | [], [] => by simp [lexLt]
  | [], _ :: _ => by simp [lexLt]
  | _ :: _, [] => by simp [lexLt]
  | a :: as, b :: bs => by
    simp only [lexLt]
    intro h
    by_cases hab : a < b
    · have hba : ¬ b < a := by omega
      simp [hba, hab]
    · by_cases hba : b < a
      · simp [hab, hba] at h
      · simp [hab, hba] at h ⊢
        exact lexLt_asymm as bs h

theorem lexLt_trans : ∀ x y z : List Nat,
    lexLt x y = true → lexLt y z = true → lexLt x z = true
  | [], [], _ => by simp [lexLt]
  | [], _ :: _, [] => by simp [lexLt]
  | [], _ :: _, _ :: _ => by simp [lexLt]
  | _ :: _, [], _ => by simp [lexLt]
  | _ :: _, _ :: _, [] => by simp [lexLt]
  | a :: as, b :: bs, c :: cs => by
    simp only [lexLt]
    intro h1 h2
    rcases Nat.lt_trichotomy a b with hab | hab | hab
    · rcases Nat.lt_trichotomy b c with hbc | hbc | hbc
      · simp [show a < c by omega]
      · subst hbc; simp [hab]
      · simp [show ¬ b < c by omega, hbc] at h2
    · subst hab
      simp only [Nat.lt_irrefl, if_false] at h1
      rcases Nat.lt_trichotomy a c with hac | hac | hac
      · simp [hac]
      · subst hac
        simp only [Nat.lt_irrefl, if_false] at h2 ⊢
        exact lexLt_trans as bs cs h1 h2
      · simp [show ¬ a < c by omega, hac] at h2
    · simp [show ¬ a < b by omega, hab] at h1

theorem lexLt_eq_of_both_false : ∀ x y : List Nat,
    lexLt x y = false → lexLt y x = false → x = y
  | [], [] => by simp
  | [], _ :: _ => by simp [lexLt]
  | _ :: _, [] => by simp [lexLt]
  | a :: as, b :: bs => by
    simp only [lexLt]
    intro h1 h2
    by_cases hab : a < b
    · simp [hab] at h1
    · by_cases hba : b < a
      · simp [hba, hab] at h2
      · have hab2 : a = b := by omega
        subst hab2
        simp [Nat.lt_irrefl] at h1 h2
        simp [lexLt_eq_of_both_false as bs h1 h2]

theorem jsSortRel_iff (a b : CookieRec) :
    jsSortRel a b ↔ lexLt (jsToLower b.name) (jsToLower a.name) = false := by
  unfold jsSortRel sortCookiesByName
  rcases h1 : lexLt (jsToLower a.name) (jsToLower b.name) with _ | _
  · rcases h2 : lexLt (jsToLower b.name) (jsToLower a.name) with _ | _
    · simp [h1, h2]
    · simp [h1, h2]
  · simp [h1, lexLt_asymm _ _ h1]

instance : IsTotal CookieRec jsSortRel := by
  constructor
  intro a b
  rcases h : lexLt (jsToLower b.name) (jsToLower a.name) with _ | _
  · exact Or.inl ((jsSortRel_iff a b).mpr h)
  · exact Or.inr ((jsSortRel_iff b a).mpr (lexLt_asymm _ _ h))

instance : IsTrans CookieRec jsSortRel := by
  constructor
  intro a b c hab hbc
  rw [jsSortRel_iff] at hab hbc ⊢
  rcases h : lexLt (jsToLower c.name) (jsToLower a.name) with _ | _
  · rfl
  · exfalso
    rcases h2 : lexLt (jsToLower b.name) (jsToLower c.name) with _ | _
    · have heq := lexLt_eq_of_both_false _ _ hbc h2
      rw [heq] at h
      rw [h] at hab
      exact Bool.false_ne_true hab.symm
    · have h3 := lexLt_trans _ _ _ h2 h
      rw [h3] at hab
      exact Bool.false_ne_true hab.symm


theorem regFind_erase_self : ∀ (m : Registry) (k : String),
    regFind (regErase m k) k = none
  | [], _ => rfl
  | (k2, v) :: rest, k => by
    by_cases h : k2 = k
    · simp [regErase, h, regFind_erase_self rest k]
    · simp [regErase, regFind, h, regFind_erase_self rest k]

theorem regFind_erase_ne : ∀ (m : Registry) (k k2 : String), k2 ≠ k →
    regFind (regErase m k) k2 = regFind m k2
  | [], _, _, _ => rfl
  | (k3, v) :: rest, k, k2, h => by
    by_cases h3 : k3 = k
    · subst h3
      simp [regErase, regFind, Ne.symm h, regFind_erase_ne rest k3 k2 h]
    · by_cases h4 : k3 = k2
      · subst h4
        simp [regErase, regFind, h3]
      · simp [regErase, regFind, h3, h4, regFind_erase_ne rest k k2 h]

theorem regErase_of_none : ∀ (m : Registry) (k : String),
    regFind m k = none → regErase m k = m
  | [], _, _ => rfl
  | (k2, v) :: rest, k, h => by
    simp only [regFind] at h
    by_cases h2 : k2 = k
    · simp [h2] at h
    · simp [h2] at h
      simp [regErase, h2, regErase_of_none rest k h]

theorem regFind_append_of_none : ∀ (m l : Registry) (k : String),
    regFind m k = none → regFind (m ++ l) k = regFind l k
  | [], _, _, _ => rfl
  | (k2, v) :: rest, l, k, h => by
    simp only [regFind] at h
    by_cases h2 : k2 = k
    · simp [h2] at h
    · simp [h2] at h
      simp [regFind, h2, regFind_append_of_none rest l k h]

theorem regFind_append : ∀ (m l : Registry) (k : String),
    regFind (m ++ l) k =
      (match regFind m k with | some v => some v | none => regFind l k)
  | [], _, _ => rfl
  | (k2, v) :: rest, l, k => by
    by_cases h : k2 = k
    · simp [regFind, h]
    · simp [regFind, h, regFind_append rest l k]

theorem regFind_mapset_self (k : String) (v : CookieEntry) :
    ∀ (m : Registry), (regFind m k).isSome →
      regFind (m.map fun p => if p.1 = k then (k, v) else p) k = some v
  | [], h => by simp [regFind] at h
  | (k2, w) :: rest, h => by
    simp only [List.map_cons]
    by_cases h2 : k2 = k
    · rw [if_pos h2]
      simp [regFind]
    · simp only [regFind, h2, if_false] at h
      rw [if_neg h2]
      simp [regFind, h2, regFind_mapset_self k v rest h]

theorem regFind_mapset_ne (k k2 : String) (v : CookieEntry) (h : k2 ≠ k) :
    ∀ (m : Registry),
      regFind (m.map fun p => if p.1 = k then (k, v) else p) k2 = regFind m k2
  | [] => rfl
  | (k3, w) :: rest => by
    simp only [List.map_cons]
    by_cases h3 : k3 = k
    · rw [if_pos h3]
      simp [regFind, Ne.symm h, h3, regFind_mapset_ne k k2 v h rest]
    · rw [if_neg h3]
      by_cases h4 : k3 = k2
      · simp [regFind, h4]
      · simp [regFind, h3, h4, regFind_mapset_ne k k2 v h rest]

theorem map_fst_mapset (k : String) (v : CookieEntry) :
    ∀ (m : Registry),
      ((m.map fun p => if p.1 = k then (k, v) else p).map Prod.fst) = m.map Prod.fst
  | [] => rfl
  | (k2, w) :: rest => by
    by_cases h : k2 = k
    · simp [h, map_fst_mapset k v rest]
    · simp [h, map_fst_mapset k v rest]

theorem regFind_set_self (m : Registry) (k : String) (v : CookieEntry) :
    regFind (regSet m k v) k = some v := by
  unfold regSet
  by_cases h : (regFind m k).isSome
  · rw [if_pos h]
    exact regFind_mapset_self k v m h
  · rw [if_neg h]
    rw [regFind_append]
    rcases h2 : regFind m k with _ | w
    · simp [regFind]
    · simp [h2] at h

theorem regFind_set_ne (m : Registry) (k k2 : String) (v : CookieEntry) (h : k2 ≠ k) :
    regFind (regSet m k v) k2 = regFind m k2 := by
  unfold regSet
  by_cases hs : (regFind m k).isSome
  · rw [if_pos hs]
    exact regFind_mapset_ne k k2 v h m
  · rw [if_neg hs]
    rw [regFind_append]
    rcases h2 : regFind m k2 with _ | w
    · simp [regFind, Ne.symm h]
    · simp

theorem regSet_map_fst_of_some (m : Registry) (k : String) (v : CookieEntry)
    (h : (regFind m k).isSome) :
    (regSet m k v).map Prod.fst = m.map Prod.fst := by
  unfold regSet
  rw [if_pos h]
  exact map_fst_mapset k v m

theorem regSet_of_none (m : Registry) (k : String) (v : CookieEntry)
    (h : regFind m k = none) :
    regSet m k v = m ++ [(k, v)] := by
  unfold regSet
  rw [if_neg (by simp [h])]

theorem showNoCookies_loadedCookies (s : St) :
    (showNoCookies s).1.loadedCookies = s.loadedCookies := by
  unfold showNoCookies
  by_cases h : s.disableButtons
  · simp [h]
  · rcases hc : s.containerChild with _ | child
    · simp [h, hc]
    · by_cases h2 : child = ChildId.noCookie <;> simp [h, hc, h2]


/-- C1: clicking the page title copies `HeaderstringFormat.format` of the
currently loaded registry to the clipboard and sets the title to the
confirmation text; the registry, container, and tab are untouched and the
emitted trace is exactly the copy command — no permission request and no
cookie reload happen on the click path. -/
theorem title_click_copies_registry (s : St) (h : s.titleElem = true) :
    pageTitleClick s =
      ({ s with clipboard := HeaderstringFormat.format s.loadedCookies,
                pageTitle := "Copied to clipboard!" },
       [Action.copyCommand (HeaderstringFormat.format s.loadedCookies)]) := by
  simp [pageTitleClick, copyText, setPageTitle, h]

/-- Witness for C1 at a concrete state. -/
theorem title_click_copies_registry_witness :
    pageTitleClick stBase =
      ({ stBase with clipboard := HeaderstringFormat.format stBase.loadedCookies,
                     pageTitle := "Copied to clipboard!" },
       [Action.copyCommand (HeaderstringFormat.format stBase.loadedCookies)]) :=
  title_click_copies_registry stBase (by rfl)

/-- C4: a change event whose cause is `overwrite` leaves the whole state —
in particular the registry — unchanged and performs no host call. -/
theorem overwrite_change_is_noop (env : Env) (s : St) (ci : ChangeInfo)
    (h : ci.cause = "overwrite") :
    onCookiesChanged env s (some ci) = (s, []) := by
  simp [onCookiesChanged, h]

/-- Witness for C4 at a concrete overwrite event. -/
theorem overwrite_change_is_noop_witness :
    onCookiesChanged envDenyAll stBase (some ⟨recA, false, "overwrite"⟩) =
      (stBase, []) :=
  overwrite_change_is_noop envDenyAll stBase ⟨recA, false, "overwrite"⟩ (by rfl)

/-- C7: while `disableButtons` is set (from just before
`Animate.transitionPage` starts until its completion callback
`transitionComplete` clears the flag), each of `showCookiesForTab`,
`showNoCookies` and `showNoPermission` returns early: the state — in
particular the container — is unchanged and no host call is made, so no
second transition or render can start. -/
theorem reentrancy_guard_suppresses_views (env : Env) (s : St)
    (h : s.disableButtons = true) :
    showCookiesForTab env s = (s, []) ∧ showNoCookies s = (s, []) ∧
      showNoPermission s = (s, []) := by
  refine ⟨?_, ?_, ?_⟩
  · rcases hs : s.currentTab with _ | url <;> simp [showCookiesForTab, hs, h]
  · simp [showNoCookies, h]
  · simp [showNoPermission, h]

/-- Witness for C7 at a concrete in-transition state. -/
theorem reentrancy_guard_suppresses_views_witness :
    showCookiesForTab envAllowEmpty { stBase with disableButtons := true } =
      ({ stBase with disableButtons := true }, []) ∧
    showNoCookies { stBase with disableButtons := true } =
      ({ stBase with disableButtons := true }, []) ∧
    showNoPermission { stBase with disableButtons := true } =
      ({ stBase with disableButtons := true }, []) :=
  reentrancy_guard_suppresses_views envAllowEmpty
    { stBase with disableButtons := true } (by rfl)

/-- C9: when the user rejects a permission request — origin-specific or
blanket `<all_urls>` — the handler changes nothing: the state (registry,
container view, page title) is returned as it was, and the only emitted
action is the request itself, so no reload occurs. -/
theorem rejected_permission_request_no_state_change :
    (∀ (env : Env) (s : St) (url : String), s.currentTab = some url →
        env.permissionGrant url = false →
        requestPermissionClick env s = some (s, [Action.requestPermission url])) ∧
    (∀ (env : Env) (s : St), env.permissionGrant "<all_urls>" = false →
        requestPermissionAllClick env s =
          (s, [Action.requestPermission "<all_urls>"])) := by
  constructor
  · intro env s url ht hg
    simp [requestPermissionClick, ht, hg]
  · intro env s hg
    simp [requestPermissionAllClick, hg]

/-- Witness for C9 at a concrete rejected request in both handlers. -/
theorem rejected_permission_request_no_state_change_witness :
    requestPermissionClick envDenyAll stBase =
      some (stBase, [Action.requestPermission "https://example.com"]) ∧
    requestPermissionAllClick envDenyAll stBase =
      (stBase, [Action.requestPermission "<all_urls>"]) :=
  ⟨rejected_permission_request_no_state_change.1 envDenyAll stBase
      "https://example.com" (by rfl) (by rfl),
   rejected_permission_request_no_state_change.2 envDenyAll stBase (by rfl)⟩

/-- C10: the second `currentTab` guard inside `showCookiesForTab` (source
line 65) is unreachable — the function already returned at the first check
whenever the tab is unset and the tab is not re-read from the host in
between — so the branch setting the title to `No cookies found!` is never
taken: on every execution the page title is either left as it was or set to
the no-permission message. -/
theorem second_tab_guard_unreachable (env : Env) (s : St) :
    (showCookiesForTab env s).1.pageTitle = s.pageTitle ∨
    (showCookiesForTab env s).1.pageTitle = "No permissions to read cookies!" := by
  rcases hs : s.currentTab with _ | url
  · simp [showCookiesForTab, hs]
  · by_cases hd : s.disableButtons
    · simp [showCookiesForTab, hs, hd]
    · by_cases hp : env.permission url = false
      · by_cases ht : s.titleElem
        · right
          simp [showCookiesForTab, hs, hd, hp, setPageTitle, ht]
        · left
          simp [showCookiesForTab, hs, hd, hp, setPageTitle, ht]
      · left
        simp only [showCookiesForTab, hs, hd]
        simp [hp]
        split <;> simp


/-- Frame of `setPageTitle`: only the title text can change. -/
theorem setPageTitle_frame (s : St) (t : String) :
    (setPageTitle s t).containerChild = s.containerChild ∧
    (setPageTitle s t).loadedCookies = s.loadedCookies ∧
    (setPageTitle s t).currentTab = s.currentTab ∧
    (setPageTitle s t).clipboard = s.clipboard := by
  unfold setPageTitle
  split <;> simp

/-- C2 counterexample: at a concrete state on tab `https://example.com`
whose permission check returns false, `showCookiesForTab` leaves the
container empty — the no-permission placeholder is not rendered (the source
passes `showNoPermission` to `console.log` instead of calling it). -/
theorem no_permission_view_not_rendered_cex :
    envDenyAll.permission "https://example.com" = false ∧
    stBase.currentTab = some "https://example.com" ∧
    (showCookiesForTab envDenyAll stBase).1.containerChild = none ∧
    (showCookiesForTab envDenyAll stBase).1.containerChild ≠
      some ChildId.noPermission := by
  decide

/-- C2 amended: when the permission check returns false,
`showCookiesForTab` sets the page title to the no-permission message and
returns without a fatal error; the cookie container and the registry are
left untouched and no placeholder is rendered. -/
theorem no_permission_sets_title_only (env : Env) (s : St) (url : String)
    (ht : s.currentTab = some url) (hd : s.disableButtons = false)
    (hp : env.permission url = false) :
    showCookiesForTab env s =
      (setPageTitle s "No permissions to read cookies!",
       [Action.checkPermissions url]) ∧
    (showCookiesForTab env s).1.containerChild = s.containerChild ∧
    (showCookiesForTab env s).1.loadedCookies = s.loadedCookies := by
  have h1 : showCookiesForTab env s =
      (setPageTitle s "No permissions to read cookies!",
       [Action.checkPermissions url]) := by
    simp [showCookiesForTab, ht, hd, hp]
  refine ⟨h1, ?_, ?_⟩
  · rw [h1]
    exact (setPageTitle_frame s _).1
  · rw [h1]
    exact (setPageTitle_frame s _).2.1

/-- Witness for the amended C2 at a concrete denied state. -/
theorem no_permission_sets_title_only_witness :
    showCookiesForTab envDenyAll stBase =
      (setPageTitle stBase "No permissions to read cookies!",
       [Action.checkPermissions "https://example.com"]) ∧
    (showCookiesForTab envDenyAll stBase).1.containerChild = stBase.containerChild ∧
    (showCookiesForTab envDenyAll stBase).1.loadedCookies = stBase.loadedCookies :=
  no_permission_sets_title_only envDenyAll stBase "https://example.com"
    (by rfl) (by rfl) (by rfl)

/-- C3 counterexample: at a concrete state whose cookie fetch returns the
empty list, the full reload leaves the container empty — the no-cookies
placeholder is not shown (the `showNoCookies()` call is commented out in
the source) — while the title indeed stays unchanged. -/
theorem empty_reload_no_placeholder_cex :
    envAllowEmpty.cookies = [] ∧
    (showCookiesForTab envAllowEmpty stBase).1.containerChild ≠
      some ChildId.noCookie ∧
    (showCookiesForTab envAllowEmpty stBase).1.containerChild = none ∧
    (showCookiesForTab envAllowEmpty stBase).1.pageTitle = stBase.pageTitle := by
  decide

/-- C3 amended: when the host returns no cookies, the reload clears the
registry and stops: the container is untouched (no placeholder is shown)
and the page title is unaffected. -/
theorem empty_reload_clears_registry_only (env : Env) (s : St) (url : String)
    (ht : s.currentTab = some url) (hd : s.disableButtons = false)
    (hp : env.permission url = true) (hc : env.cookies = []) :
    showCookiesForTab env s =
      ({ s with loadedCookies := [] },
       [Action.checkPermissions url, Action.getAllCookies]) := by
  simp [showCookiesForTab, ht, hd, hp, hc, sortCookies]

/-- Witness for the amended C3 at a concrete empty fetch. -/
theorem empty_reload_clears_registry_only_witness :
    showCookiesForTab envAllowEmpty stBase =
      ({ stBase with loadedCookies := [] },
       [Action.checkPermissions "https://example.com", Action.getAllCookies]) :=
  empty_reload_clears_registry_only envAllowEmpty stBase "https://example.com"
    (by rfl) (by rfl) (by rfl) (by rfl)


/-- C8 counterexample: a genuine add event delivered while the tab is still
unknown (before `Ready`) mutates the registry — it is not ignored. -/
theorem pre_ready_change_mutates_registry_cex :
    stPreReady.currentTab = none ∧
    (onCookiesChanged envDenyAll stPreReady
          (some ⟨recA, false, "explicit"⟩)).1.loadedCookies ≠
      stPreReady.loadedCookies := by
  decide

/-- The view functions of `showNoCookies` never read the current tab. -/
theorem showNoCookies_tab_independent (s : St) (t : Option String) :
    (showNoCookies { s with currentTab := t }).1.loadedCookies =
      (showNoCookies s).1.loadedCookies ∧
    (showNoCookies { s with currentTab := t }).1.containerChild =
      (showNoCookies s).1.containerChild := by
  unfold showNoCookies
  by_cases h : s.disableButtons
  · simp [h]
  · rcases hc : s.containerChild with _ | child
    · simp [h, hc]
    · by_cases h2 : child = ChildId.noCookie <;> simp [h, hc, h2]

/-- C8 amended: before `Ready` only the payload-less refresh event is a
no-op (because `showCookiesForTab` returns at the tab guard); a genuine
change event is applied to the registry and the container exactly as it
would be with any tab — `onCookiesChanged` never consults the current
tab on that path. -/
theorem pre_ready_refresh_noop_and_tab_independent :
    (∀ (env : Env) (s : St), s.currentTab = none →
        onCookiesChanged env s none = (s, [])) ∧
    (∀ (env : Env) (s : St) (ci : ChangeInfo) (t : Option String),
        (onCookiesChanged env s (some ci)).1.loadedCookies =
          (onCookiesChanged env { s with currentTab := t } (some ci)).1.loadedCookies ∧
        (onCookiesChanged env s (some ci)).1.containerChild =
          (onCookiesChanged env { s with currentTab := t } (some ci)).1.containerChild) := by
  constructor
  · intro env s h
    simp [onCookiesChanged, showCookiesForTab, h]
  · intro env s ci t
    unfold onCookiesChanged
    by_cases hc : ci.cause = "overwrite"
    · simp [hc]
    · by_cases hr : ci.removed
      · by_cases hf : (regFind s.loadedCookies (Cookie.hashCode ci.cookie)).isSome
        · simp only [hc, hr, hf, if_true, if_false]
          split
          · exact ⟨(showNoCookies_tab_independent _ t).1.symm,
              (showNoCookies_tab_independent _ t).2.symm⟩
          · simp
        · simp [hc, hr, hf]
      · by_cases hf : (regFind s.loadedCookies (Cookie.hashCode ci.cookie)).isSome
        · simp [hc, hr, hf]
        · simp [hc, hr, hf]


/-- C5: for a non-overwrite change event, `onCookiesChanged` acts on the
registry exactly as an upsert/delete keyed by the cookie fingerprint:
a removal makes the fingerprint unbound and leaves every other key
untouched, and is the identity when the fingerprint was absent; a
non-removal binds the fingerprint to the new record while leaving every
other key untouched, preserving the key sequence when the fingerprint was
already present (update in place) and appending the fingerprint otherwise
(insert). -/
theorem applyChange_delete_upsert (env : Env) (s : St) (ci : ChangeInfo)
    (hc : ci.cause ≠ "overwrite") :
    (ci.removed = true →
        regFind (onCookiesChanged env s (some ci)).1.loadedCookies
            (Cookie.hashCode ci.cookie) = none ∧
        (∀ k, k ≠ Cookie.hashCode ci.cookie →
            regFind (onCookiesChanged env s (some ci)).1.loadedCookies k =
              regFind s.loadedCookies k) ∧
        (regFind s.loadedCookies (Cookie.hashCode ci.cookie) = none →
            (onCookiesChanged env s (some ci)).1.loadedCookies =
              s.loadedCookies)) ∧
    (ci.removed = false →
        regFind (onCookiesChanged env s (some ci)).1.loadedCookies
            (Cookie.hashCode ci.cookie) =
          some ⟨Cookie.hashCode ci.cookie, ci.cookie⟩ ∧
        (∀ k, k ≠ Cookie.hashCode ci.cookie →
            regFind (onCookiesChanged env s (some ci)).1.loadedCookies k =
              regFind s.loadedCookies k) ∧
        ((regFind s.loadedCookies (Cookie.hashCode ci.cookie)).isSome →
            (onCookiesChanged env s (some ci)).1.loadedCookies.map Prod.fst =
              s.loadedCookies.map Prod.fst) ∧
        (regFind s.loadedCookies (Cookie.hashCode ci.cookie) = none →
            (onCookiesChanged env s (some ci)).1.loadedCookies.map Prod.fst =
              s.loadedCookies.map Prod.fst ++ [Cookie.hashCode ci.cookie])) := by
  constructor
  · intro hr
    by_cases hf : (regFind s.loadedCookies (Cookie.hashCode ci.cookie)).isSome
    · have hm : (onCookiesChanged env s (some ci)).1.loadedCookies =
          regErase s.loadedCookies (Cookie.hashCode ci.cookie) := by
        simp only [onCookiesChanged, hc, hr, hf, if_true, if_false]
        split
        · exact showNoCookies_loadedCookies _
        · rfl
      refine ⟨?_, ?_, ?_⟩
      · rw [hm]
        exact regFind_erase_self _ _
      · intro k hk
        rw [hm]
        exact regFind_erase_ne _ _ _ hk
      · intro hnone
        rw [hnone] at hf
        simp at hf
    · have hm : (onCookiesChanged env s (some ci)).1.loadedCookies =
          s.loadedCookies := by
        simp [onCookiesChanged, hc, hr, hf]
      have hnone : regFind s.loadedCookies (Cookie.hashCode ci.cookie) = none := by
        rcases h2 : regFind s.loadedCookies (Cookie.hashCode ci.cookie) with _ | w
        · rfl
        · rw [h2] at hf
          simp at hf
      exact ⟨by rw [hm, hnone], fun k _ => by rw [hm], fun _ => hm⟩
  · intro hr
    by_cases hf : (regFind s.loadedCookies (Cookie.hashCode ci.cookie)).isSome
    · have hm : (onCookiesChanged env s (some ci)).1.loadedCookies =
          regSet s.loadedCookies (Cookie.hashCode ci.cookie)
            ⟨Cookie.hashCode ci.cookie, ci.cookie⟩ := by
        simp [onCookiesChanged, hc, hr, hf]
      refine ⟨?_, ?_, ?_, ?_⟩
      · rw [hm]
        exact regFind_set_self _ _ _
      · intro k hk
        rw [hm]
        exact regFind_set_ne _ _ _ _ hk
      · intro _
        rw [hm]
        exact regSet_map_fst_of_some _ _ _ hf
      · intro hnone
        rw [hnone] at hf
        simp at hf
    · have hm : (onCookiesChanged env s (some ci)).1.loadedCookies =
          s.loadedCookies ++
            [(Cookie.hashCode ci.cookie,
              ⟨Cookie.hashCode ci.cookie, ci.cookie⟩)] := by
        simp [onCookiesChanged, hc, hr, hf]
      have hnone : regFind s.loadedCookies (Cookie.hashCode ci.cookie) = none := by
        rcases h2 : regFind s.loadedCookies (Cookie.hashCode ci.cookie) with _ | w
        · rfl
        · rw [h2] at hf
          simp at hf
      refine ⟨?_, ?_, ?_, ?_⟩
      · rw [hm, regFind_append, hnone]
        simp [regFind]
      · intro k hk
        rw [hm, regFind_append]
        rcases h2 : regFind s.loadedCookies k with _ | w
        · simp [regFind, Ne.symm hk]
        · simp
      · intro hsome
        rw [hnone] at hsome
        simp at hsome
      · intro _
        rw [hm]
        simp


/-- Witness for C5: deleting a concrete present entry unbinds its
fingerprint, and the same event on an empty registry is a no-op. -/
theorem applyChange_delete_upsert_witness :
    regFind (onCookiesChanged envDenyAll
          { stBase with loadedCookies :=
              [(Cookie.hashCode recA, ⟨Cookie.hashCode recA, recA⟩)] }
          (some ⟨recA, true, "explicit"⟩)).1.loadedCookies
        (Cookie.hashCode recA) = none ∧
    (onCookiesChanged envDenyAll stBase
          (some ⟨recA, true, "explicit"⟩)).1.loadedCookies =
      stBase.loadedCookies :=
  ⟨((applyChange_delete_upsert envDenyAll
        { stBase with loadedCookies :=
            [(Cookie.hashCode recA, ⟨Cookie.hashCode recA, recA⟩)] }
        ⟨recA, true, "explicit"⟩ (by decide)).1 (by rfl)).1,
   ((applyChange_delete_upsert envDenyAll stBase
        ⟨recA, true, "explicit"⟩ (by decide)).1 (by rfl)).2.2 (by rfl)⟩

/-- C6: the reload's sort (`cookies.sort(sortCookiesByName)`) orders the
records ascending by case-insensitively lowered name (no record strictly
precedes, in that order, one placed before it), is a permutation of the
input, and is stable — any group of records whose lowercased names are all
equal keeps its original relative order; in particular cookies named
`Beta`, `alpha`, `Gamma` come out as `alpha`, `Beta`, `Gamma`. -/
theorem reload_sort_stable_case_insensitive :
    (∀ l : List CookieRec,
        (sortCookies l).Pairwise
          (fun a b => lexLt (jsToLower b.name) (jsToLower a.name) = false) ∧
        (sortCookies l).Perm l) ∧
    (∀ (l c : List CookieRec),
        c.Pairwise (fun a b => jsToLower a.name = jsToLower b.name) →
        c.Sublist l → c.Sublist (sortCookies l)) ∧
    (sortCookies
        [⟨"Beta", "1", "d", "/"⟩, ⟨"alpha", "2", "d", "/"⟩,
         ⟨"Gamma", "3", "d", "/"⟩]).map CookieRec.name =
      ["alpha", "Beta", "Gamma"] := by
  have key : ∀ a b : CookieRec, jsToLower a.name = jsToLower b.name →
      jsSortRel a b := by
    intro a b h
    unfold jsSortRel sortCookiesByName
    rw [h]
    simp [lexLt_irrefl]
  refine ⟨fun l => ⟨?_, ?_⟩, ?_, ?_⟩
  · exact (List.sorted_insertionSort jsSortRel l).imp
      (fun h => (jsSortRel_iff _ _).mp h)
  · exact List.perm_insertionSort jsSortRel l
  · intro l c hp hsub
    exact List.sublist_insertionSort (hp.imp (fun h => key _ _ h)) hsub
  · decide

/-- Witness for C6: a concrete tie — `SID` before `sid` — survives the
sort in its original order. -/
theorem reload_sort_stable_case_insensitive_witness :
    List.Sublist [recUp, recLo] (sortCookies [recUp, ⟨"aaa", "x", "d", "/"⟩, recLo]) :=
  reload_sort_stable_case_insensitive.2.1
    [recUp, ⟨"aaa", "x", "d", "/"⟩, recLo] [recUp, recLo] (by decide)
    (List.Sublist.cons₂ recUp (List.Sublist.cons ⟨"aaa", "x", "d", "/"⟩
      (List.Sublist.refl [recLo])))


/-- Witness for the amended C8: the payload-less refresh is a no-op before
`Ready` at a concrete state, and a concrete add event has the same registry
effect with the tab unknown as with a known tab. -/
theorem pre_ready_refresh_noop_and_tab_independent_witness :
    onCookiesChanged envDenyAll stPreReady none = (stPreReady, []) ∧
    (onCookiesChanged envDenyAll stPreReady
          (some ⟨recA, false, "explicit"⟩)).1.loadedCookies =
      (onCookiesChanged envDenyAll
          { stPreReady with currentTab := some "https://example.com" }
          (some ⟨recA, false, "explicit"⟩)).1.loadedCookies :=
  ⟨pre_ready_refresh_noop_and_tab_independent.1 envDenyAll stPreReady (by rfl),
   (pre_ready_refresh_noop_and_tab_independent.2 envDenyAll stPreReady
      ⟨recA, false, "explicit"⟩ (some "https://example.com")).1⟩

end CookieList
